import Mathlib

/-!
Shallow embedding of the trace-agent decision core (package `agent`:
`Agent.Process`, `Agent.ProcessStats`, `Agent.sample`, `Agent.runSamplers`,
`Agent.samplePriorityTrace`, `Agent.sampleNoPriorityTrace`,
`traceContainsError`), together with spec-level models of the collaborators
the core consumes (normalizer, blacklister, obfuscator, tag replacer,
samplers, event extractor, grain assembly).

Go's in-place span mutation is rendered as explicit state passing; the
`*info.TagStats` atomic counters are threaded as a `TagStats` record;
channel sends (`TraceWriter.In`, `Concentrator.In`, `OutStats`) are
collected into result lists.  Sampler/extractor invocations are tracked in
a `CallLog` so that claims about which samplers run are stateable.
-/

namespace TraceAgent

/-- A span (`pb.Span`): service, name, resource, timing, error flag, string
tags (`Meta`) and numeric metrics.  `samplingPriority` models
`sampler.GetSamplingPriority` reading the client-supplied priority from the
root span (`none` when the client set no priority); `msgsize` models the
span's serialized size as summed by `pb.Trace.Msgsize`.  Floating point
metric values are modelled as rationals. -/
structure Span where
  spanID : Nat
  parentID : Nat
  service : String
  name : String
  resource : String
  start : Int
  duration : Int
  error : Int
  meta : List (String × String)
  metrics : List (String × ℚ)
  samplingPriority : Option Int
  msgsize : Nat
deriving DecidableEq, Repr, Inhabited

/-- A trace (`pb.Trace`) is the client-ordered list of its spans. -/
abbrev Trace := List Span

/-- `pb.Trace.Msgsize`, modelled as the sum of the per-span sizes. -/
def Trace.msgsize (t : Trace) : Int :=
  (t.map fun s => (s.msgsize : Int)).sum

/-- `traceContainsError`: true when some span has a non-zero error flag. -/
def traceContainsError (trace : Trace) : Bool :=
  trace.any fun span => span.error != 0

/-- Modelled from the spec: `traceutil.GetRoot` is not under src/.  The spec
says a trace "has exactly one effective Root Span (the span with no local
parent, or the earliest-start span if ambiguous)".  We return the index of
that span: among the spans whose parent id matches no span id of the trace
(all spans when there is none), the earliest-start one. -/
def GetRootIdx (t : Trace) : Nat :=
  let idxs := List.range t.length
  let noParent := idxs.filter fun i =>
    ¬ t.any fun s2 => s2.spanID == (t.getD i default).parentID
  let cands := if noParent.isEmpty then idxs else noParent
  match cands with
  | [] => 0
  | c :: cs =>
      cs.foldl (fun acc i =>
        if (t.getD i default).start < (t.getD acc default).start then i else acc) c

/-- The effective root span of a trace (`traceutil.GetRoot`). -/
def GetRoot (t : Trace) : Span := t.getD (GetRootIdx t) default

/-- Modelled from the spec: `sampler.GetSamplingPriority` is not under src/;
it returns the explicit client priority carried on the root span together
with a flag telling whether one was present (priority defaults to 0 when
absent). -/
def GetSamplingPriority (s : Span) : Int × Bool :=
  match s.samplingPriority with
  | some p => (p, true)
  | none => (0, false)

/-- Modelled from the spec: `sampler.CombineRates` is not under src/.  The
spec: "rates combine by harmonic composition: `rate = 1 / (1/r1 + 1/r2 - 1)`
when both apply". -/
def CombineRates (rate1 rate2 : ℚ) : ℚ :=
  1 / (1 / rate1 + 1 / rate2 - 1)

/-- `stats.WeightedTrace` (`stats.NewWeightedTrace(t, root)`), modelled from
the spec as "a weighted representation used for stats" bundling the spans
and the root. -/
structure WeightedTrace where
  spans : Trace
  root : Span
deriving DecidableEq, Repr

/-- One `stats.SublayerValue`: a metric name, a tag and a value. -/
structure SublayerValue where
  metric : String
  tagName : String
  tagValue : String
  value : ℚ
deriving DecidableEq, Repr

/-- `ProcessedTrace`: the derived view built once per trace inside
`Process` (trace, weighted trace, root, resolved env, sublayer map). -/
structure ProcessedTrace where
  trace : Trace
  weightedTrace : WeightedTrace
  root : Span
  env : String
  sublayers : List (Span × List SublayerValue)
deriving DecidableEq, Repr

/-- The per-tag counters of `info.TagStats` touched by `Process`/`sample`
(Go `int64` fields updated through `atomic.AddInt64`). -/
structure TagStats where
  spansReceived : Int
  spansDropped : Int
  tracesFiltered : Int
  spansFiltered : Int
  tracesPriorityNone : Int
  tracesPriorityNeg : Int
  tracesPriority0 : Int
  tracesPriority1 : Int
  tracesPriority2 : Int
  eventsExtracted : Int
  eventsSampled : Int
deriving DecidableEq, Repr

/-- Records which collaborators a call into the sampling code invoked.
Every `Sampler.Add` / `ExceptionSampler.Add` / `EventProcessor.Process`
call site in the source sets the matching flag. -/
structure CallLog where
  priorityCalled : Bool
  errorsCalled : Bool
  scoreCalled : Bool
  exceptionCalled : Bool
  eventProcessorCalled : Bool
deriving DecidableEq, Repr

/-- The log with no call recorded. -/
def CallLog.empty : CallLog :=
  ⟨false, false, false, false, false⟩

/-- The `Agent`'s collaborators and configuration, as consumed by the core.
Samplers are the capability shape `evaluate(trace) -> (keep, rate)`;
the normalizer, filters and stats-group transforms are modelled from the
spec since their packages are not under src/:
`normalize` rejects a trace or returns its canonicalized form;
`obfuscate`/`truncate`/`replace` are per-span transforms;
`setupClientRateTags` covers the client-rate/pre-sample-rate tagging of the
root; `statsName`/`statsResource`/`statsService` cover
`normalizeStatsGroup`/`ObfuscateStatsGroup`/`ReplaceStatsGroup`, which
canonicalize the group's strings and do not touch its counts. -/
structure AgentEnv where
  normalize : Trace → Option Trace
  allows : Span → Bool
  obfuscate : Span → Span
  truncate : Span → Span
  replace : Span → Span
  setupClientRateTags : Span → Span
  computeTopLevel : Trace → Trace
  getTraceEnv : Trace → String
  defaultEnv : String
  prioritySampler : ProcessedTrace → Bool × ℚ
  errorsScoreSampler : ProcessedTrace → Bool × ℚ
  scoreSampler : ProcessedTrace → Bool × ℚ
  exceptionSampler : String → Span → Trace → Bool
  eventProcess : Span → Trace → List Span × Nat
  extractSubtraces : Trace → Span → List (Span × Trace)
  computeSublayers : Trace → List SublayerValue
  maxPayloadSize : Int
  normalizeTag : String → String
  statsName : String → String
  statsResource : String → String
  statsService : String → String

/-- `Agent.samplePriorityTrace`: the priority sampler always runs; with an
error span the errors sampler also runs and the decisions are OR'd with
`CombineRates`; otherwise the exception sampler is consulted and forces
`(true, 1)` when it fires, else the priority sampler's result stands. -/
def samplePriorityTrace (env : AgentEnv) (pt : ProcessedTrace) :
    Bool × ℚ × CallLog :=
  let pr := env.prioritySampler pt
  let log0 : CallLog := { CallLog.empty with priorityCalled := true }
  if traceContainsError pt.trace then
    let er := env.errorsScoreSampler pt
    (er.1 || pr.1, CombineRates pr.2 er.2, { log0 with errorsCalled := true })
  else
    let log1 := { log0 with exceptionCalled := true }
    if env.exceptionSampler pt.env pt.root pt.trace then
      (true, 1, log1)
    else
      (pr.1, pr.2, log1)

/-- `Agent.sampleNoPriorityTrace`: errors sampler when the trace has an
error span, else the score sampler. -/
def sampleNoPriorityTrace (env : AgentEnv) (pt : ProcessedTrace) :
    Bool × ℚ × CallLog :=
  if traceContainsError pt.trace then
    let er := env.errorsScoreSampler pt
    (er.1, er.2, { CallLog.empty with errorsCalled := true })
  else
    let sr := env.scoreSampler pt
    (sr.1, sr.2, { CallLog.empty with scoreCalled := true })

/-- `Agent.runSamplers`: dispatch on whether a priority is present. -/
def runSamplers (env : AgentEnv) (pt : ProcessedTrace) (hasPriority : Bool) :
    Bool × ℚ × CallLog :=
  if hasPriority then samplePriorityTrace env pt
  else sampleNoPriorityTrace env pt

/-- What `Agent.sample` produces: the extracted events, the keep decision,
the updated counters and the invocation log. -/
structure SampleResult where
  events : List Span
  keep : Bool
  ts : TagStats
  log : CallLog
deriving Repr

/-- `Agent.sample`: bump exactly one per-priority counter, drop negative
priority traces before any sampler, otherwise run the samplers and the
event processor.  The `sampler.AddGlobalRate(pt.Root, rate)` call only
annotates the root's metrics with the effective rate and is not observed by
any later step modelled here. -/
def sample (env : AgentEnv) (ts : TagStats) (pt : ProcessedTrace) :
    SampleResult :=
  let pv := GetSamplingPriority pt.root
  let priority := pv.1
  let hasPriority := pv.2
  let ts1 :=
    if hasPriority then
      if priority < 0 then
        { ts with tracesPriorityNeg := ts.tracesPriorityNeg + 1 }
      else if priority = 0 then
        { ts with tracesPriority0 := ts.tracesPriority0 + 1 }
      else if priority = 1 then
        { ts with tracesPriority1 := ts.tracesPriority1 + 1 }
      else
        { ts with tracesPriority2 := ts.tracesPriority2 + 1 }
    else
      { ts with tracesPriorityNone := ts.tracesPriorityNone + 1 }
  if priority < 0 then
    ⟨[], false, ts1, CallLog.empty⟩
  else
    let rs := runSamplers env pt hasPriority
    let ev := env.eventProcess pt.root pt.trace
    let ts2 := { ts1 with
      eventsExtracted := ts1.eventsExtracted + (ev.2 : Int)
      eventsSampled := ts1.eventsSampled + (ev.1.length : Int) }
    ⟨ev.1, rs.1, ts2, { rs.2.2 with eventProcessorCalled := true }⟩

/-- `writer.SampledSpans`: the running output batch of kept traces and
events with its byte-size estimate and span count. -/
structure SampledSpans where
  traces : List Trace
  events : List Span
  size : Int
  spanCount : Int
deriving DecidableEq, Repr

/-- A fresh, empty batch (`new(writer.SampledSpans)`). -/
def SampledSpans.new : SampledSpans :=
  ⟨[], [], 0, 0⟩

/-- One `stats.Input` handed to the Concentrator: the weighted trace, the
sublayer map, the resolved env, and the client-computed-stats flag. -/
structure StatsInput where
  trace : WeightedTrace
  sublayers : List (Span × List SublayerValue)
  env : String
  sublayersOnly : Bool
deriving DecidableEq, Repr

/-- The decoded `api.Payload` handed to `Process`: the traces plus the
container tags and client-computed flags, and the receiver's per-tag
counters (`p.Source`). -/
structure Payload where
  traces : List Trace
  containerTags : String
  clientComputedTopLevel : Bool
  clientComputedStats : Bool
  source : TagStats
deriving Repr

/-- The name of the tag holding container key/value pairs
(`tagContainersTags`). -/
def tagContainersTags : String := "_dd.tags.container"

/-- Modelled from the spec: `traceutil.SetMeta` is not under src/; it sets
the given string tag on the span. -/
def setMeta (s : Span) (key v : String) : Span :=
  { s with meta := (s.meta.filter fun kv => kv.1 ≠ key) ++ [(key, v)] }

/-- Modelled from the spec: `stats.SetSublayersOnSpan` is not under src/;
the sublayer values are "attached back onto the kept root span as metrics". -/
def setSublayersOnSpan (s : Span) (values : List SublayerValue) : Span :=
  { s with metrics :=
      s.metrics ++ values.map fun v => (v.metric ++ "." ++ v.tagValue, v.value) }

/-- The state threaded through `Process`'s per-trace loop: the counters,
the running batch, the accumulated stats inputs, and the batches already
handed to `TraceWriter.In`. -/
structure ProcState where
  ts : TagStats
  ss : SampledSpans
  sinputs : List StatsInput
  flushed : List SampledSpans
deriving Repr

/-- The extra sanitization and tagging `Process` performs on an allowed
trace before sampling: obfuscate, truncate and tag-replace every span,
set up the root's tags (client rate, container tags), compute top-level
spans unless the client did, resolve the env, and bundle the result as a
`ProcessedTrace` (sublayer map initially empty). -/
def processedTraceOf (env : AgentEnv) (p : Payload) (tn : Trace) :
    ProcessedTrace :=
  let rootIdx := GetRootIdx tn
  let t1 := tn.map fun s => env.replace (env.truncate (env.obfuscate s))
  let root1 := env.setupClientRateTags (t1.getD rootIdx default)
  let root2 :=
    if p.containerTags ≠ "" then setMeta root1 tagContainersTags p.containerTags
    else root1
  let t2 := t1.set rootIdx root2
  let t3 := if ¬ p.clientComputedTopLevel then env.computeTopLevel t2 else t2
  let v := env.getTraceEnv t3
  let envStr := if v ≠ "" then v else env.defaultEnv
  let root := t3.getD rootIdx default
  { trace := t3, weightedTrace := ⟨t3, root⟩, root := root
    env := envStr, sublayers := [] }

/-- The subtrace sublayer map `Process` computes for one trace
(`ExtractSubtraces` + `ComputeSublayers` per subtrace). -/
def sublayersOf (env : AgentEnv) (pt : ProcessedTrace) :
    List (Span × List SublayerValue) :=
  (env.extractSubtraces pt.trace pt.root).map fun sub =>
    (sub.1, env.computeSublayers sub.2)

/-- The single `stats.Input` that `Process` appends for one trace passing
normalization and the blacklist: the weighted trace, the sublayer map, the
resolved env, and the client-computed-stats flag. -/
def statsInputOf (env : AgentEnv) (p : Payload) (tn : Trace) : StatsInput :=
  let pt := processedTraceOf env p tn
  ⟨pt.weightedTrace, sublayersOf env pt, pt.env, p.clientComputedStats⟩

/-- The end of `Process`'s loop body: when the running batch's size
strictly exceeds the ceiling, hand it to the trace-writer queue and start
a fresh one; otherwise keep accumulating.  Returns the new running batch
and the handed-over batches. -/
def flushStep (maxSize : Int) (flushed : List SampledSpans)
    (ss : SampledSpans) : SampledSpans × List SampledSpans :=
  if ss.size > maxSize then (SampledSpans.new, flushed ++ [ss])
  else (ss, flushed)

/-- The body of `Process`'s `for _, t := range p.Traces` loop for one trace:
skip empty traces; count received spans; drop traces the normalizer
rejects; check the blacklist on the root; sanitize and bundle the trace
(`processedTraceOf`); sample; compute subtrace sublayers (attached onto
the kept spans); append exactly one stats input; append kept spans and
events to the batch and hand it over when its size exceeds the ceiling. -/
def processTrace (env : AgentEnv) (p : Payload) (st : ProcState) (t : Trace) :
    ProcState :=
  if t.isEmpty then st else
  let tracen : Int := t.length
  let ts0 := { st.ts with spansReceived := st.ts.spansReceived + tracen }
  match env.normalize t with
  | none =>
      { st with ts := { ts0 with spansDropped := ts0.spansDropped + tracen } }
  | some tn =>
    let root0 := GetRoot tn
    if ¬ env.allows root0 then
      { st with ts := { ts0 with
          tracesFiltered := ts0.tracesFiltered + 1
          spansFiltered := ts0.spansFiltered + tracen } }
    else
      let pt := processedTraceOf env p tn
      let t3 := pt.trace
      let sres := sample env ts0 pt
      let sublayers := sublayersOf env pt
      let t4 :=
        if sres.keep then
          t3.map fun s =>
            match List.lookup s sublayers with
            | some values => setSublayersOnSpan s values
            | none => s
        else t3
      let sinputs1 := st.sinputs ++ [statsInputOf env p tn]
      let ss1 :=
        if sres.keep then
          { st.ss with
              traces := st.ss.traces ++ [t4]
              size := st.ss.size + Trace.msgsize t4
              spanCount := st.ss.spanCount + (t4.length : Int) }
        else st.ss
      let ss2 :=
        if ¬ sres.events.isEmpty then
          { ss1 with
              events := ss1.events ++ sres.events
              size := ss1.size + Trace.msgsize sres.events }
        else ss1
      let fs := flushStep env.maxPayloadSize st.flushed ss2
      ⟨sres.ts, fs.1, sinputs1, fs.2⟩

/-- What `Process` sends out: the final counters, the batches handed to
`TraceWriter.In` (in order), and the stats-input batch handed to
`Concentrator.In` (empty or a single batch). -/
structure ProcessResult where
  ts : TagStats
  sent : List SampledSpans
  statsSent : List (List StatsInput)
deriving Repr

/-- `Agent.Process`: fold the per-trace loop over the payload, then flush
the remaining batch when its size is positive and hand the stats inputs to
the Concentrator when any were collected. -/
def Process (env : AgentEnv) (p : Payload) : ProcessResult :=
  if p.traces.isEmpty then ⟨p.source, [], []⟩ else
  let init : ProcState := ⟨p.source, SampledSpans.new, [], []⟩
  let st := p.traces.foldl (processTrace env p) init
  let sent := if st.ss.size > 0 then st.flushed ++ [st.ss] else st.flushed
  let statsSent := if ¬ st.sinputs.isEmpty then [st.sinputs] else []
  ⟨st.ts, sent, statsSent⟩

/-- `pb.ClientGroupedStats`: one client-aggregated group for a given
service/name/resource (counts are Go `uint64`). -/
structure ClientGroupedStats where
  service : String
  name : String
  resource : String
  httpStatusCode : Nat
  hits : Nat
  errors : Nat
  duration : Nat
deriving DecidableEq, Repr

/-- `pb.ClientStatsBucket`: a client flush-interval bucket of groups. -/
structure ClientStatsBucket where
  start : Nat
  duration : Nat
  stats : List ClientGroupedStats
deriving DecidableEq, Repr

/-- `pb.ClientStatsPayload`: the pre-aggregated client stats payload. -/
structure ClientStatsPayload where
  hostname : String
  env : String
  version : String
  stats : List ClientStatsBucket
deriving DecidableEq, Repr

/-- Modelled from the spec: the `stats` package measure constants; the
measures are "hits/errors/duration". -/
def HITS : String := "hits"

/-- Modelled from the spec: the errors measure constant. -/
def ERRORS : String := "errors"

/-- Modelled from the spec: the duration measure constant. -/
def DURATION : String := "duration"

/-- One `stats.Count`: one measure for one grain within one bucket. -/
structure Count where
  key : String
  name : String
  measure : String
  tagSet : List (String × String)
  topLevel : ℚ
  value : ℚ
deriving DecidableEq, Repr

/-- A `stats.Bucket`: a time window holding a map from Count key to Count
(the Go map is modelled as an association list with overwrite-on-insert). -/
structure Bucket where
  start : Int
  duration : Int
  counts : List (String × Count)
deriving DecidableEq, Repr

/-- Go map insertion for the bucket's `Counts` map: overwrite the entry
with the given key if present, otherwise append it. -/
def insertCount (m : List (String × Count)) (key : String) (c : Count) :
    List (String × Count) :=
  if m.any fun kv => kv.1 == key then
    m.map fun kv => if kv.1 == key then (key, c) else kv
  else
    m ++ [(key, c)]

/-- A Bool-valued key order on tags, used to canonicalize a tag map. -/
def tagLe (a b : String × String) : Bool :=
  if a.1 = b.1 then decide (a.2 ≤ b.2) else decide (a.1 ≤ b.1)

/-- Modelled from the spec: `stats.AssembleGrain` is not under src/; the
grain is the "unique combination of {env, resource, service, extra tags}"
and "grain computation must be deterministic and order-independent for tag
maps (i.e., canonical serialization)": the extra tags are sorted before
being serialized.  Returns the grain string and the tag set. -/
def AssembleGrain (env resource service : String)
    (tags : List (String × String)) : String × List (String × String) :=
  let sorted := tags.mergeSort tagLe
  let grain := "env:" ++ env ++ ",resource:" ++ resource ++ ",service:" ++ service
      ++ String.join (sorted.map fun kv => "," ++ kv.1 ++ ":" ++ kv.2)
  (grain, ("env", env) :: ("resource", resource) :: ("service", service) :: sorted)

/-- Modelled from the spec: `stats.GrainKey` is not under src/; the Count
key is a "deterministic string combining span name, measure, and grain". -/
def GrainKey (name measure grain : String) : String :=
  name ++ "|" ++ measure ++ "|" ++ grain

/-- The `stats.Payload` sent on `OutStats`. -/
structure StatsPayload where
  hostName : String
  env : String
  stats : List Bucket
deriving DecidableEq, Repr

/-- The body of `ProcessStats`'s inner loop for one grouped-stats entry:
normalize/obfuscate/replace the group's strings, build the tag map, and
fill a fresh bucket with the three Counts (hits, errors, duration) keyed
from one grain. -/
def bucketOfGroup (env : AgentEnv) (version envStr : String)
    (start duration : Nat) (b0 : ClientGroupedStats) : Bucket :=
  let b := { b0 with
    name := env.statsName b0.name
    resource := env.statsResource b0.resource
    service := env.statsService b0.service }
  let tags :=
    if b.httpStatusCode ≠ 0 then
      [("version", version), ("http.status_code", toString b.httpStatusCode)]
    else
      [("version", version)]
  let g := AssembleGrain envStr b.resource b.service tags
  let key1 := GrainKey b.name HITS g.1
  let c1 : Count := ⟨key1, b.name, HITS, g.2, (b.hits : ℚ), (b.hits : ℚ)⟩
  let key2 := GrainKey b.name ERRORS g.1
  let c2 : Count := ⟨key2, b.name, ERRORS, g.2, (b.hits : ℚ), (b.errors : ℚ)⟩
  let key3 := GrainKey b.name DURATION g.1
  let c3 : Count := ⟨key3, b.name, DURATION, g.2, (b.hits : ℚ), (b.duration : ℚ)⟩
  { start := (start : Int), duration := (duration : Int)
    counts := insertCount (insertCount (insertCount [] key1 c1) key2 c2) key3 c3 }

/-- `Agent.ProcessStats`: resolve and normalize the payload env, then turn
every client grouped-stats entry into one bucket of three Counts, and send
the assembled payload on `OutStats`. -/
def ProcessStats (env : AgentEnv) (pin : ClientStatsPayload) : StatsPayload :=
  let env0 := if pin.env = "" then env.defaultEnv else pin.env
  let envStr := env.normalizeTag env0
  let buckets := pin.stats.foldl (fun acc group =>
    group.stats.foldl (fun acc b =>
      acc ++ [bucketOfGroup env pin.version envStr group.start group.duration b])
      acc) []
  ⟨pin.hostname, envStr, buckets⟩

/-! Concrete instances used by witnesses and counterexamples. -/

/-- A concrete span for witnesses. -/
def demoSpan : Span :=
  { spanID := 1, parentID := 0, service := "svc", name := "op"
    resource := "raw", start := 0, duration := 5, error := 0
    meta := [], metrics := [], samplingPriority := none, msgsize := 10 }

/-- `demoSpan` with a chosen sampling priority and error flag. -/
def demoSpanP (pr : Option Int) (err : Int) : Span :=
  { demoSpan with samplingPriority := pr, error := err }

/-- A one-span `ProcessedTrace` with a chosen priority and error flag. -/
def demoPT (pr : Option Int) (err : Int) : ProcessedTrace :=
  { trace := [demoSpanP pr err]
    weightedTrace := ⟨[demoSpanP pr err], demoSpanP pr err⟩
    root := demoSpanP pr err, env := "none", sublayers := [] }

/-- All-zero counters. -/
def demoTS : TagStats :=
  ⟨0, 0, 0, 0, 0, 0, 0, 0, 0, 0, 0⟩

/-- A concrete agent environment: identity transforms, a priority sampler
answering (false, 1/2), an errors sampler answering (true, 1/3), a score
sampler answering (true, 1/2), a quiet exception sampler, and an event
extractor returning the root as a single event. -/
def demoEnv : AgentEnv :=
  { normalize := fun t => some t
    allows := fun _ => true
    obfuscate := id, truncate := id, replace := id
    setupClientRateTags := id
    computeTopLevel := id
    getTraceEnv := fun _ => ""
    defaultEnv := "none"
    prioritySampler := fun _ => (false, 1/2)
    errorsScoreSampler := fun _ => (true, 1/3)
    scoreSampler := fun _ => (true, 1/2)
    exceptionSampler := fun _ _ _ => false
    eventProcess := fun root _ => ([root], 1)
    extractSubtraces := fun _ _ => []
    computeSublayers := fun _ => []
    maxPayloadSize := 100
    normalizeTag := id
    statsName := id, statsResource := id, statsService := id }

/-! Claim theorems. -/

/-- C3: a trace carrying an explicit priority strictly below zero is never
kept: `sample` returns `keep = false` with no events, increments exactly
the negative-priority counter `TracesPriorityNeg` (all other counters
unchanged), and invokes no sampler and no event processor. -/
theorem sample_negative_priority (env : AgentEnv) (ts : TagStats)
    (pt : ProcessedTrace) (p : Int)
    (hp : pt.root.samplingPriority = some p) (hneg : p < 0) :
    (sample env ts pt).keep = false ∧
    (sample env ts pt).events = [] ∧
    (sample env ts pt).ts =
      { ts with tracesPriorityNeg := ts.tracesPriorityNeg + 1 } ∧
    (sample env ts pt).log = CallLog.empty := by
  simp [sample, GetSamplingPriority, hp, hneg]

/-- Witness for C3 at a concrete negative-priority trace. -/
theorem sample_negative_priority_witness :
    (demoPT (some (-1)) 0).root.samplingPriority = some (-1) ∧
    (-1 : Int) < 0 ∧
    ((sample demoEnv demoTS (demoPT (some (-1)) 0)).keep = false ∧
      (sample demoEnv demoTS (demoPT (some (-1)) 0)).events = [] ∧
      (sample demoEnv demoTS (demoPT (some (-1)) 0)).ts =
        { demoTS with tracesPriorityNeg := demoTS.tracesPriorityNeg + 1 } ∧
      (sample demoEnv demoTS (demoPT (some (-1)) 0)).log = CallLog.empty) :=
  ⟨rfl, by decide,
    sample_negative_priority demoEnv demoTS (demoPT (some (-1)) 0) (-1) rfl
      (by decide)⟩

/-- C2: with a priority present (≥ 0) and an error span, both the priority
sampler and the errors score sampler run, the keep decision is their
disjunction, and for rates in (0,1) the combined rate is
`1/(1/r1 + 1/r2 - 1)`; with a priority present, no error span and a quiet
exception sampler, the decision and rate are exactly the priority
sampler's. -/
theorem samplePriorityTrace_combines_rates (env : AgentEnv) (ts ts2 : TagStats)
    (pt pt2 : ProcessedTrace) (q q2 : Int)
    (hq : pt.root.samplingPriority = some q) (hq0 : 0 ≤ q)
    (herr : traceContainsError pt.trace = true)
    (_h1 : 0 < (env.prioritySampler pt).2)
    (_h2 : (env.prioritySampler pt).2 < 1)
    (_h3 : 0 < (env.errorsScoreSampler pt).2)
    (_h4 : (env.errorsScoreSampler pt).2 < 1)
    (hq2 : pt2.root.samplingPriority = some q2) (hq20 : 0 ≤ q2)
    (hne : traceContainsError pt2.trace = false)
    (hexc : env.exceptionSampler pt2.env pt2.root pt2.trace = false) :
    (samplePriorityTrace env pt).1 =
        ((env.errorsScoreSampler pt).1 || (env.prioritySampler pt).1) ∧
    (samplePriorityTrace env pt).2.1 =
        1 / (1 / (env.prioritySampler pt).2 + 1 / (env.errorsScoreSampler pt).2 - 1) ∧
    (samplePriorityTrace env pt).2.2.priorityCalled = true ∧
    (samplePriorityTrace env pt).2.2.errorsCalled = true ∧
    (sample env ts pt).keep =
        ((env.errorsScoreSampler pt).1 || (env.prioritySampler pt).1) ∧
    (sample env ts pt).log.priorityCalled = true ∧
    (sample env ts pt).log.errorsCalled = true ∧
    (samplePriorityTrace env pt2).1 = (env.prioritySampler pt2).1 ∧
    (samplePriorityTrace env pt2).2.1 = (env.prioritySampler pt2).2 ∧
    (sample env ts2 pt2).keep = (env.prioritySampler pt2).1 := by
  have hq' : ¬ q < 0 := not_lt.mpr hq0
  have hq2' : ¬ q2 < 0 := not_lt.mpr hq20
  refine ⟨?_, ?_, ?_, ?_, ?_, ?_, ?_, ?_, ?_, ?_⟩ <;>
    simp [sample, runSamplers, samplePriorityTrace, CombineRates,
      GetSamplingPriority, hq, hq2, hq', hq2', herr, hne, hexc]

/-- Witness for C2: rates 1/2 and 1/3 combine to 1/(2 + 3 - 1) = 1/4 on an
error trace, and the priority sampler's (false, 1/2) stands alone on an
error-free trace. -/
theorem samplePriorityTrace_combines_rates_witness :
    ((demoPT (some 1) 1).root.samplingPriority = some 1 ∧
      traceContainsError (demoPT (some 1) 1).trace = true ∧
      traceContainsError (demoPT (some 1) 0).trace = false) ∧
    (samplePriorityTrace demoEnv (demoPT (some 1) 1)).1 = true ∧
    (samplePriorityTrace demoEnv (demoPT (some 1) 1)).2.1 = 1 / 4 ∧
    (samplePriorityTrace demoEnv (demoPT (some 1) 1)).2.2.errorsCalled = true ∧
    (sample demoEnv demoTS (demoPT (some 1) 1)).keep = true ∧
    (samplePriorityTrace demoEnv (demoPT (some 1) 0)).1 = false ∧
    (samplePriorityTrace demoEnv (demoPT (some 1) 0)).2.1 = 1 / 2 := by
  have h := samplePriorityTrace_combines_rates demoEnv demoTS demoTS
    (demoPT (some 1) 1) (demoPT (some 1) 0) 1 1 rfl (by decide) (by decide)
    (by norm_num [demoEnv]) (by norm_num [demoEnv]) (by norm_num [demoEnv])
    (by norm_num [demoEnv]) rfl (by decide) (by decide) rfl
  refine ⟨⟨rfl, by decide, by decide⟩, ?_, ?_, h.2.2.2.1, ?_, ?_, ?_⟩
  · rw [h.1]; decide
  · rw [h.2.1]; norm_num [demoEnv]
  · rw [h.2.2.2.2.1]; decide
  · rw [h.2.2.2.2.2.2.2.1]; decide
  · rw [h.2.2.2.2.2.2.2.2.1]; norm_num [demoEnv]

/-- C8: with a priority present, no error span and a firing exception
sampler, `samplePriorityTrace` returns keep with rate exactly 1, whatever
the priority sampler decided; and the exception sampler is consulted on no
other path (not on error traces, not in no-priority sampling, not for
negative priorities). -/
theorem exceptionSampler_short_circuits (env : AgentEnv) (ts tsn : TagStats)
    (pt ptE ptN ptNeg : ProcessedTrace) (q qn : Int)
    (hq : pt.root.samplingPriority = some q) (hq0 : 0 ≤ q)
    (hne : traceContainsError pt.trace = false)
    (hexc : env.exceptionSampler pt.env pt.root pt.trace = true)
    (herrE : traceContainsError ptE.trace = true)
    (hqn : ptNeg.root.samplingPriority = some qn) (hqn0 : qn < 0) :
    (samplePriorityTrace env pt).1 = true ∧
    (samplePriorityTrace env pt).2.1 = 1 ∧
    (sample env ts pt).keep = true ∧
    (sample env ts pt).log.exceptionCalled = true ∧
    (samplePriorityTrace env ptE).2.2.exceptionCalled = false ∧
    (sampleNoPriorityTrace env ptN).2.2.exceptionCalled = false ∧
    (sample env tsn ptNeg).log.exceptionCalled = false := by
  have hq' : ¬ q < 0 := not_lt.mpr hq0
  refine ⟨?_, ?_, ?_, ?_, ?_, ?_, ?_⟩ <;>
    simp [sample, runSamplers, samplePriorityTrace, sampleNoPriorityTrace,
      GetSamplingPriority, CallLog.empty, hq, hq', hne, hexc, herrE, hqn, hqn0]
  · cases h : traceContainsError ptN.trace <;> simp [h]

/-- A variant of `demoEnv` whose exception sampler always fires. -/
def demoEnvExc : AgentEnv :=
  { demoEnv with exceptionSampler := fun _ _ _ => true }

/-- Witness for C8: the exception sampler overrides the priority sampler's
(false, 1/2) with (true, 1), and stays unconsulted on the other paths. -/
theorem exceptionSampler_short_circuits_witness :
    ((demoPT (some 0) 0).root.samplingPriority = some 0 ∧
      traceContainsError (demoPT (some 0) 0).trace = false ∧
      demoEnvExc.exceptionSampler (demoPT (some 0) 0).env
        (demoPT (some 0) 0).root (demoPT (some 0) 0).trace = true ∧
      traceContainsError (demoPT (some 0) 1).trace = true) ∧
    ((samplePriorityTrace demoEnvExc (demoPT (some 0) 0)).1 = true ∧
      (samplePriorityTrace demoEnvExc (demoPT (some 0) 0)).2.1 = 1 ∧
      (sample demoEnvExc demoTS (demoPT (some 0) 0)).keep = true ∧
      (sample demoEnvExc demoTS (demoPT (some 0) 0)).log.exceptionCalled = true ∧
      (samplePriorityTrace demoEnvExc (demoPT (some 0) 1)).2.2.exceptionCalled
        = false ∧
      (sampleNoPriorityTrace demoEnvExc (demoPT none 0)).2.2.exceptionCalled
        = false ∧
      (sample demoEnvExc demoTS (demoPT (some (-2)) 0)).log.exceptionCalled
        = false) :=
  ⟨⟨rfl, by decide, rfl, by decide⟩,
    exceptionSampler_short_circuits demoEnvExc demoTS demoTS
      (demoPT (some 0) 0) (demoPT (some 0) 1) (demoPT none 0)
      (demoPT (some (-2)) 0) 0 (-2) rfl (by decide) (by decide) rfl (by decide)
      rfl (by decide)⟩

/-- C4 as stated is false: a negative-priority trace reaches `sample`, yet
the event extractor is not run and no events are returned; here the
extractor would have produced a non-empty event list. -/
theorem sample_events_counterexample :
    (demoEnv.eventProcess (demoPT (some (-1)) 0).root
        (demoPT (some (-1)) 0).trace).1 ≠ [] ∧
    (sample demoEnv demoTS (demoPT (some (-1)) 0)).events = [] ∧
    (sample demoEnv demoTS (demoPT (some (-1)) 0)).log.eventProcessorCalled
      = false :=
  ⟨by decide, rfl, rfl⟩

/-- C4 amended: for every trace that reaches `sample` and does not carry a
negative explicit priority, the event extractor runs on the root and trace
and its events are returned as-is, independently of the keep decision. -/
theorem sample_runs_event_extractor (env : AgentEnv) (ts : TagStats)
    (pt : ProcessedTrace) (h : ¬ (GetSamplingPriority pt.root).1 < 0) :
    (sample env ts pt).events = (env.eventProcess pt.root pt.trace).1 ∧
    (sample env ts pt).log.eventProcessorCalled = true := by
  simp [sample, h]

/-- Witness for the amended C4: a priority-0 trace that is dropped
(keep = false) still returns the extracted event. -/
theorem sample_runs_event_extractor_witness :
    (¬ (GetSamplingPriority (demoPT (some 0) 0).root).1 < 0) ∧
    ((sample demoEnv demoTS (demoPT (some 0) 0)).events =
        (demoEnv.eventProcess (demoPT (some 0) 0).root
          (demoPT (some 0) 0).trace).1 ∧
      (sample demoEnv demoTS (demoPT (some 0) 0)).log.eventProcessorCalled
        = true) ∧
    (sample demoEnv demoTS (demoPT (some 0) 0)).keep = false :=
  ⟨by decide, sample_runs_event_extractor demoEnv demoTS _ (by decide), rfl⟩

/-- A non-empty trace that passes `Process`'s normalization and blacklist
gates (the two conditions under which it reaches sampling and stats). -/
def passesGate (env : AgentEnv) (t : Trace) : Bool :=
  !t.isEmpty &&
    (match env.normalize t with
     | none => false
     | some tn => env.allows (GetRoot tn))

/-- A variant of `demoEnv` whose normalizer rejects every trace. -/
def demoEnvReject : AgentEnv :=
  { demoEnv with normalize := fun _ => none }

/-- A concrete payload carrying one single-span trace. -/
def demoPayload : Payload :=
  ⟨[[demoSpan]], "", false, false, demoTS⟩

/-- The initial loop state of `Process` over `demoPayload`. -/
def demoSt : ProcState :=
  ⟨demoTS, SampledSpans.new, [], []⟩

/-- C9: when normalization rejects a trace, `Process` drops it atomically:
`SpansDropped` grows by the trace's span count (besides `SpansReceived`)
and nothing else changes — no filter counter, no stats input, no batch
content, no flush. -/
theorem process_drops_invalid_trace (env : AgentEnv) (p : Payload)
    (st : ProcState) (t : Trace) (h1 : t ≠ [])
    (h2 : env.normalize t = none) :
    processTrace env p st t =
      { st with ts := { st.ts with
          spansReceived := st.ts.spansReceived + (t.length : Int)
          spansDropped := st.ts.spansDropped + (t.length : Int) } } := by
  cases t with
  | nil => exact absurd rfl h1
  | cons a l => simp [processTrace, h2]

/-- Witness for C9 at a concrete rejected trace. -/
theorem process_drops_invalid_trace_witness :
    ([demoSpan] : Trace) ≠ [] ∧
    demoEnvReject.normalize [demoSpan] = none ∧
    processTrace demoEnvReject demoPayload demoSt [demoSpan] =
      { demoSt with ts := { demoSt.ts with
          spansReceived := demoSt.ts.spansReceived + 1
          spansDropped := demoSt.ts.spansDropped + 1 } } :=
  ⟨by decide, rfl,
    process_drops_invalid_trace demoEnvReject demoPayload demoSt [demoSpan]
      (by decide) rfl⟩

/-- A variant of `demoEnv` whose obfuscator rewrites every span's resource
to "obf" and whose blacklister rejects exactly the resource "obf". -/
def demoEnvObf : AgentEnv :=
  { demoEnv with
      obfuscate := fun s => { s with resource := "obf" }
      allows := fun s => s.resource != "obf" }

/-- C1 as stated is false: the blacklist check runs before obfuscation and
tag-replacement, not after.  Here the obfuscated, tag-replaced root is
rejected by the blacklister, yet the trace is not filtered: it reaches
sampling and is shipped in the output batch. -/
theorem process_blacklist_order_counterexample :
    demoEnvObf.allows
        (demoEnvObf.replace (demoEnvObf.truncate (demoEnvObf.obfuscate demoSpan)))
      = false ∧
    (Process demoEnvObf demoPayload).ts.tracesFiltered = 0 ∧
    (Process demoEnvObf demoPayload).ts.spansFiltered = 0 ∧
    (Process demoEnvObf demoPayload).sent.length = 1 := by
  refine ⟨by decide, ?_, ?_, ?_⟩ <;> rfl

/-- A variant of `demoEnv` whose blacklister rejects exactly the raw
resource "raw" carried by `demoSpan`. -/
def demoEnvBlock : AgentEnv :=
  { demoEnv with allows := fun s => s.resource != "raw" }

/-- C1 amended: the blacklist check observes the root span as produced by
normalization, before obfuscation and tag-replacement; a trace whose
normalized root is rejected is counted filtered (one trace, all its spans)
and dropped before any obfuscation, tag-replacement, sampling or stats
work — nothing else in the loop state changes. -/
theorem process_blacklist_before_obfuscation (env : AgentEnv) (p : Payload)
    (st : ProcState) (t tn : Trace) (h1 : t ≠ [])
    (h2 : env.normalize t = some tn)
    (h3 : env.allows (GetRoot tn) = false) :
    processTrace env p st t =
      { st with ts := { st.ts with
          spansReceived := st.ts.spansReceived + (t.length : Int)
          tracesFiltered := st.ts.tracesFiltered + 1
          spansFiltered := st.ts.spansFiltered + (t.length : Int) } } := by
  cases t with
  | nil => exact absurd rfl h1
  | cons a l =>
    simp only [processTrace, List.isEmpty_cons, Bool.false_eq_true,
      if_false, h2]
    rw [if_pos (by simp [h3])]

/-- Witness for the amended C1 at a concrete blacklisted trace. -/
theorem process_blacklist_before_obfuscation_witness :
    ([demoSpan] : Trace) ≠ [] ∧
    demoEnvBlock.normalize [demoSpan] = some [demoSpan] ∧
    demoEnvBlock.allows (GetRoot [demoSpan]) = false ∧
    processTrace demoEnvBlock demoPayload demoSt [demoSpan] =
      { demoSt with ts := { demoSt.ts with
          spansReceived := demoSt.ts.spansReceived + 1
          tracesFiltered := demoSt.ts.tracesFiltered + 1
          spansFiltered := demoSt.ts.spansFiltered + 1 } } :=
  ⟨by decide, rfl, by decide,
    process_blacklist_before_obfuscation demoEnvBlock demoPayload demoSt
      [demoSpan] [demoSpan] (by decide) rfl (by decide)⟩

/-- Helper: a gate-passing trace appends exactly its one stats input. -/
lemma processTrace_sinputs_pass (env : AgentEnv) (p : Payload)
    (st : ProcState) (t tn : Trace) (h1 : t ≠ [])
    (h2 : env.normalize t = some tn) (h3 : env.allows (GetRoot tn) = true) :
    (processTrace env p st t).sinputs = st.sinputs ++ [statsInputOf env p tn] := by
  cases t with
  | nil => exact absurd rfl h1
  | cons a l =>
    simp only [processTrace, List.isEmpty_cons, Bool.false_eq_true,
      if_false, h2]
    rw [if_neg (by simp [h3])]

/-- Helper: a trace failing a gate appends no stats input. -/
lemma processTrace_sinputs_fail (env : AgentEnv) (p : Payload)
    (st : ProcState) (t : Trace) (h : passesGate env t = false) :
    (processTrace env p st t).sinputs = st.sinputs := by
  unfold passesGate at h
  cases t with
  | nil => simp [processTrace]
  | cons a l =>
    simp only [List.isEmpty_cons, Bool.not_false, Bool.true_and] at h
    cases hn : env.normalize (a :: l) with
    | none =>
        simp only [processTrace, List.isEmpty_cons, Bool.false_eq_true,
          if_false, hn]
    | some tn =>
        rw [hn] at h
        simp only [] at h
        simp only [processTrace, List.isEmpty_cons, Bool.false_eq_true,
          if_false, hn]
        rw [if_pos (by simp [h])]

/-- Helper: the number of stats inputs grows by one exactly on a
gate-passing trace. -/
lemma processTrace_sinputs_length (env : AgentEnv) (p : Payload)
    (st : ProcState) (t : Trace) :
    (processTrace env p st t).sinputs.length =
      st.sinputs.length + (if passesGate env t then 1 else 0) := by
  cases hg : passesGate env t with
  | false => simp [processTrace_sinputs_fail env p st t hg]
  | true =>
    unfold passesGate at hg
    cases t with
    | nil => simp at hg
    | cons a l =>
      simp only [List.isEmpty_cons, Bool.not_false, Bool.true_and] at hg
      cases hn : env.normalize (a :: l) with
      | none => rw [hn] at hg; simp at hg
      | some tn =>
          rw [hn] at hg
          rw [processTrace_sinputs_pass env p st (a :: l) tn (by simp) hn hg]
          simp

/-- Helper: over a whole payload, the fold collects one stats input per
gate-passing trace. -/
lemma foldl_sinputs_length (env : AgentEnv) (p : Payload) (l : List Trace) :
    ∀ st : ProcState,
      (l.foldl (processTrace env p) st).sinputs.length =
        st.sinputs.length + l.countP (passesGate env) := by
  induction l with
  | nil => intro st; simp
  | cons t l ih =>
      intro st
      rw [List.foldl_cons, ih, processTrace_sinputs_length env p st t,
        List.countP_cons]
      cases hg : passesGate env t
      all_goals simp [hg]
      all_goals omega

/-- Helper: the stats inputs `Process` hands to the Concentrator, one per
gate-passing trace. -/
lemma Process_statsInputs_length (env : AgentEnv) (p : Payload) :
    (Process env p).statsSent.flatten.length =
      p.traces.countP (passesGate env) := by
  unfold Process
  cases htr : p.traces with
  | nil => simp
  | cons t l =>
    have hlen := foldl_sinputs_length env p (t :: l)
      ⟨p.source, SampledSpans.new, [], []⟩
    simp only [List.isEmpty_cons, Bool.false_eq_true, if_false]
    set stf := (t :: l).foldl (processTrace env p)
      ⟨p.source, SampledSpans.new, [], []⟩ with hstf
    cases hs : stf.sinputs with
    | nil =>
        rw [hs] at hlen
        simp [hs]
        simp only [List.length_nil] at hlen
        omega
    | cons x xs =>
        rw [hs] at hlen
        simp [hs]
        simpa using hlen

/-- C5: for a trace that passes normalization and the blacklist, `Process`
appends exactly one `stats.Input` — `statsInputOf`, carrying the weighted
trace, the sublayer map and the resolved env — whatever the samplers
decide; and the batch handed to the Concentrator holds exactly one input
per gate-passing trace of the payload. -/
theorem process_one_stats_input_per_trace (env : AgentEnv) (p : Payload)
    (st : ProcState) (t tn : Trace) (h1 : t ≠ [])
    (h2 : env.normalize t = some tn) (h3 : env.allows (GetRoot tn) = true) :
    (processTrace env p st t).sinputs = st.sinputs ++ [statsInputOf env p tn] ∧
    (Process env p).statsSent.flatten.length =
      p.traces.countP (passesGate env) :=
  ⟨processTrace_sinputs_pass env p st t tn h1 h2 h3,
    Process_statsInputs_length env p⟩

/-- Witness for C5: one passing trace yields exactly one stats input even
though the score sampler keeps it, and `demoPayload` yields one input. -/
theorem process_one_stats_input_per_trace_witness :
    ([demoSpan] : Trace) ≠ [] ∧
    demoEnv.normalize [demoSpan] = some [demoSpan] ∧
    demoEnv.allows (GetRoot [demoSpan]) = true ∧
    ((processTrace demoEnv demoPayload demoSt [demoSpan]).sinputs =
        demoSt.sinputs ++ [statsInputOf demoEnv demoPayload [demoSpan]] ∧
      (Process demoEnv demoPayload).statsSent.flatten.length =
        demoPayload.traces.countP (passesGate demoEnv)) :=
  ⟨by decide, rfl, by decide,
    process_one_stats_input_per_trace demoEnv demoPayload demoSt [demoSpan]
      [demoSpan] (by decide) rfl (by decide)⟩

/-- Helper: `flushStep` leaves a running batch within the ceiling and
hands over only batches that strictly exceeded the ceiling. -/
lemma flushStep_inv (maxSize : Int) (flushed : List SampledSpans)
    (ss : SampledSpans) (hmax : 0 ≤ maxSize)
    (hfl : ∀ b ∈ flushed, maxSize < b.size) :
    (flushStep maxSize flushed ss).1.size ≤ maxSize ∧
    ∀ b ∈ (flushStep maxSize flushed ss).2, maxSize < b.size := by
  unfold flushStep
  split
  next h =>
    refine ⟨by simpa [SampledSpans.new] using hmax, ?_⟩
    intro b hb
    rcases List.mem_append.mp hb with hb | hb
    · exact hfl b hb
    · rw [List.mem_singleton.mp hb]; exact h
  next h =>
    exact ⟨le_of_not_lt h, hfl⟩

/-- Helper: one loop step keeps the running batch within the ceiling and
hands over only batches that strictly exceeded the ceiling. -/
lemma processTrace_batch_inv (env : AgentEnv) (p : Payload) (t : Trace)
    (st : ProcState) (hmax : 0 ≤ env.maxPayloadSize)
    (hss : st.ss.size ≤ env.maxPayloadSize)
    (hfl : ∀ b ∈ st.flushed, env.maxPayloadSize < b.size) :
    (processTrace env p st t).ss.size ≤ env.maxPayloadSize ∧
    ∀ b ∈ (processTrace env p st t).flushed,
      env.maxPayloadSize < b.size := by
  simp only [processTrace]
  split
  · exact ⟨hss, hfl⟩
  · split
    · exact ⟨hss, hfl⟩
    · split
      · exact ⟨hss, hfl⟩
      · exact flushStep_inv env.maxPayloadSize st.flushed _ hmax hfl

/-- Helper: the loop invariant over the whole payload fold. -/
lemma foldl_batch_inv (env : AgentEnv) (p : Payload)
    (hmax : 0 ≤ env.maxPayloadSize) (l : List Trace) :
    ∀ st : ProcState, st.ss.size ≤ env.maxPayloadSize →
      (∀ b ∈ st.flushed, env.maxPayloadSize < b.size) →
      (l.foldl (processTrace env p) st).ss.size ≤ env.maxPayloadSize ∧
      ∀ b ∈ (l.foldl (processTrace env p) st).flushed,
        env.maxPayloadSize < b.size := by
  induction l with
  | nil => intro st h1 h2; exact ⟨h1, h2⟩
  | cons t l ih =>
      intro st h1 h2
      have h := processTrace_batch_inv env p t st hmax h1 h2
      exact ih _ h.1 h.2

/-- C7: the trace-writer handoffs of `Process` split into the mid-loop
flushes — each of which strictly exceeded the payload-size ceiling when it
was handed over — and a final pending batch that never exceeds the ceiling
and is flushed exactly when its size is positive, so nothing is held back
across payload boundaries. -/
theorem process_batch_flushing (env : AgentEnv) (p : Payload)
    (hmax : 0 ≤ env.maxPayloadSize) :
    ∃ loopFlushed pending,
      (Process env p).sent =
        loopFlushed ++ (if 0 < pending.size then [pending] else []) ∧
      (∀ b ∈ loopFlushed, env.maxPayloadSize < b.size) ∧
      pending.size ≤ env.maxPayloadSize := by
  simp only [Process]
  split
  · exact ⟨[], SampledSpans.new, by simp [SampledSpans.new], by simp,
      by simpa [SampledSpans.new] using hmax⟩
  · have h := foldl_batch_inv env p hmax p.traces
      ⟨p.source, SampledSpans.new, [], []⟩ (by simpa [SampledSpans.new] using hmax)
      (by simp)
    refine ⟨(p.traces.foldl (processTrace env p)
        ⟨p.source, SampledSpans.new, [], []⟩).flushed,
      (p.traces.foldl (processTrace env p)
        ⟨p.source, SampledSpans.new, [], []⟩).ss, ?_, h.2, h.1⟩
    split
    next hpos => simp [hpos]
    next hpos => simp [hpos]

/-- Witness for C7 at the concrete demo payload. -/
theorem process_batch_flushing_witness :
    (0 : Int) ≤ demoEnv.maxPayloadSize ∧
    ∃ loopFlushed pending,
      (Process demoEnv demoPayload).sent =
        loopFlushed ++ (if 0 < pending.size then [pending] else []) ∧
      (∀ b ∈ loopFlushed, demoEnv.maxPayloadSize < b.size) ∧
      pending.size ≤ demoEnv.maxPayloadSize :=
  ⟨by decide, process_batch_flushing demoEnv demoPayload (by decide)⟩

/-- Helper: Count keys built from the same name and grain but measures of
different lengths are distinct strings. -/
lemma GrainKey_ne (n g m1 m2 : String) (h : m1.length ≠ m2.length) :
    GrainKey n m1 g ≠ GrainKey n m2 g := by
  intro he
  apply h
  have hlen := congrArg String.length he
  have hp : ("|" : String).length = 1 := rfl
  simp only [GrainKey, String.length_append, hp] at hlen
  omega

/-- Helper: the Boolean form of `GrainKey_ne`. -/
lemma GrainKey_beq_false (n g m1 m2 : String) (h : m1.length ≠ m2.length) :
    (GrainKey n m1 g == GrainKey n m2 g) = false :=
  beq_eq_false_iff_ne.mpr (GrainKey_ne n g m1 m2 h)

/-- Helper: the three Counts of one client grouped-stats entry, written
out: the three keys come from one grain, the measures are hits, errors and
duration, the values are the group's counts, and the map holds exactly
these three entries (no key collision). -/
lemma bucketOfGroup_counts (env : AgentEnv) (version envStr : String)
    (start dur : Nat) (b : ClientGroupedStats) :
    (bucketOfGroup env version envStr start dur b).counts =
      (let n := env.statsName b.name
       let g := AssembleGrain envStr (env.statsResource b.resource)
          (env.statsService b.service)
          (if b.httpStatusCode ≠ 0 then
            [("version", version), ("http.status_code", toString b.httpStatusCode)]
           else [("version", version)])
       [(GrainKey n HITS g.1,
          ⟨GrainKey n HITS g.1, n, HITS, g.2, (b.hits : ℚ), (b.hits : ℚ)⟩),
        (GrainKey n ERRORS g.1,
          ⟨GrainKey n ERRORS g.1, n, ERRORS, g.2, (b.hits : ℚ), (b.errors : ℚ)⟩),
        (GrainKey n DURATION g.1,
          ⟨GrainKey n DURATION g.1, n, DURATION, g.2, (b.hits : ℚ),
            (b.duration : ℚ)⟩)]) := by
  have h12 : ∀ g, (GrainKey (env.statsName b.name) HITS g ==
      GrainKey (env.statsName b.name) ERRORS g) = false := fun g =>
    GrainKey_beq_false _ g HITS ERRORS (by decide)
  have h13 : ∀ g, (GrainKey (env.statsName b.name) HITS g ==
      GrainKey (env.statsName b.name) DURATION g) = false := fun g =>
    GrainKey_beq_false _ g HITS DURATION (by decide)
  have h23 : ∀ g, (GrainKey (env.statsName b.name) ERRORS g ==
      GrainKey (env.statsName b.name) DURATION g) = false := fun g =>
    GrainKey_beq_false _ g ERRORS DURATION (by decide)
  simp only [bucketOfGroup, insertCount, List.any_nil, List.any_cons,
    Bool.or_false, h12, h13, h23, Bool.false_eq_true, if_false,
    List.nil_append, List.cons_append]

/-- Helper: `ProcessStats` turns every client grouped-stats entry of every
client bucket into exactly one `bucketOfGroup` bucket, in order. -/
lemma ProcessStats_stats (env : AgentEnv) (pin : ClientStatsPayload) :
    (ProcessStats env pin).stats =
      (pin.stats.map fun group =>
        group.stats.map fun bg =>
          bucketOfGroup env pin.version
            (env.normalizeTag (if pin.env = "" then env.defaultEnv else pin.env))
            group.start group.duration bg).flatten := by
  simp only [ProcessStats]
  generalize env.normalizeTag (if pin.env = "" then env.defaultEnv else pin.env)
    = envStr
  induction pin.stats using List.reverseRecOn with
  | nil => rfl
  | append_singleton groups group ih =>
    rw [List.foldl_append, List.map_append, List.foldl_cons, List.foldl_nil, ih,
      List.flatten_append]
    simp only [List.map_cons, List.map_nil, List.flatten_cons, List.flatten_nil,
      List.append_nil]
    generalize (groups.map fun group =>
      group.stats.map fun bg =>
        bucketOfGroup env pin.version envStr group.start group.duration bg).flatten
      = acc
    induction group.stats using List.reverseRecOn with
    | nil => simp
    | append_singleton bs bg ih2 =>
      rw [List.foldl_append, List.foldl_cons, List.foldl_nil, ih2,
        List.map_append]
      simp

/-- C6: every client grouped-stats entry with counts h, e, d yields via
`ProcessStats` exactly one bucket whose Counts map holds exactly three
Counts — measure hits with value h, errors with value e, duration with
value d — all keyed from one shared grain string and tag set. -/
theorem processStats_count_triple (env : AgentEnv) (pin : ClientStatsPayload)
    (version envStr : String) (start dur : Nat) (b : ClientGroupedStats) :
    (∃ grain tagset,
      (bucketOfGroup env version envStr start dur b).counts =
        [(GrainKey (env.statsName b.name) HITS grain,
          ⟨GrainKey (env.statsName b.name) HITS grain, env.statsName b.name,
            HITS, tagset, (b.hits : ℚ), (b.hits : ℚ)⟩),
         (GrainKey (env.statsName b.name) ERRORS grain,
          ⟨GrainKey (env.statsName b.name) ERRORS grain, env.statsName b.name,
            ERRORS, tagset, (b.hits : ℚ), (b.errors : ℚ)⟩),
         (GrainKey (env.statsName b.name) DURATION grain,
          ⟨GrainKey (env.statsName b.name) DURATION grain, env.statsName b.name,
            DURATION, tagset, (b.hits : ℚ), (b.duration : ℚ)⟩)]) ∧
    (ProcessStats env pin).stats =
      (pin.stats.map fun group =>
        group.stats.map fun bg =>
          bucketOfGroup env pin.version
            (env.normalizeTag (if pin.env = "" then env.defaultEnv else pin.env))
            group.start group.duration bg).flatten :=
  ⟨⟨(AssembleGrain envStr (env.statsResource b.resource)
      (env.statsService b.service)
      (if b.httpStatusCode ≠ 0 then
        [("version", version), ("http.status_code", toString b.httpStatusCode)]
       else [("version", version)])).1,
    (AssembleGrain envStr (env.statsResource b.resource)
      (env.statsService b.service)
      (if b.httpStatusCode ≠ 0 then
        [("version", version), ("http.status_code", toString b.httpStatusCode)]
       else [("version", version)])).2,
    bucketOfGroup_counts env version envStr start dur b⟩,
    ProcessStats_stats env pin⟩

/-- C10: in every bucket `ProcessStats` produces, the TopLevel field of
all three Counts — errors and duration included — carries the group's Hits
value, while only Value carries the measure-specific quantity. -/
theorem processStats_topLevel_is_hits (env : AgentEnv)
    (version envStr : String) (start dur : Nat) (b : ClientGroupedStats) :
    ((bucketOfGroup env version envStr start dur b).counts.all fun kc =>
        kc.2.topLevel == (b.hits : ℚ)) = true ∧
    ((bucketOfGroup env version envStr start dur b).counts.map fun kc =>
        kc.2.value) = [(b.hits : ℚ), (b.errors : ℚ), (b.duration : ℚ)] := by
  rw [bucketOfGroup_counts]
  constructor
  · simp
  · rfl

end TraceAgent
